import Mathlib

/-!
Verification development for the th-backend media platform's search/indexing
subsystem.  The Go source under `internal/domain`, `internal/service`,
`internal/repository` and `pkg/elasticsearch` is shallowly embedded below:
pure data is translated to structures, database / search-engine state is
passed explicitly as a list of rows / documents, and fallible operations
return `Except` or pair their result with an `Option` error.  Machine `int`
(64-bit in this build) arithmetic is modelled on `Int`, with explicit
wrap-around where an overflow is reachable.
-/

namespace ThBackend

/-! ## Data model (`internal/domain`) -/

/-- `MediaStatus` is a string type in Go (`internal/domain/media.go`). -/
abbrev MediaStatus := String

def StatusUploading : MediaStatus := "uploading"

def StatusReady : MediaStatus := "ready"

def StatusFailed : MediaStatus := "failed"

def StatusDeleted : MediaStatus := "deleted"

/-- `MediaType` is a string type in Go (`"video"` or `"podcast"`). -/
abbrev MediaType := String

/-- `domain.Media` (`internal/domain/media.go`).  Timestamps are modelled as
integers (Unix time); `DeletedAt *time.Time` becomes `Option Int`. -/
structure Media where
  id : String
  title : String
  description : String
  filePath : String
  fileSize : Int
  duration : Int
  format : String
  type : MediaType
  status : MediaStatus
  createdAt : Int
  updatedAt : Int
  deletedAt : Option Int
  deriving DecidableEq, Repr

/-- `Media.CanBeSearched` (`internal/domain/media.go`): "returns true if the
media can appear in search results". -/
def Media.CanBeSearched (m : Media) : Bool :=
  m.status == StatusReady

/-- `Media.IsProcessed` (`internal/domain/media.go`). -/
def Media.IsProcessed (m : Media) : Bool :=
  m.status == StatusReady

/-- `domain.SearchRequest` (`internal/domain/search.go`). -/
structure SearchRequest where
  query : String
  type : String
  limit : Int
  offset : Int
  deriving DecidableEq, Repr

/-- `domain.SearchIndex` (`internal/domain/search.go`): a row of the
`search_index` table.  `UpdatedAt` is managed by the ORM and irrelevant to
every claim, so it is not carried in the row model. -/
structure SearchIndex where
  id : String
  mediaID : String
  title : String
  description : String
  content : String
  type : MediaType
  deriving DecidableEq, Repr

/-- `domain.SearchResult` (`internal/domain/search.go`).  The Go `Score` is a
`float64` used only as an opaque relevance value; it is modelled as `Int`
(the Postgres adapter always returns the fixed neutral score `1.0`). -/
structure SearchResult where
  media : Media
  score : Int
  deriving DecidableEq, Repr

/-- `domain.SearchResponse` (`internal/domain/search.go`). -/
structure SearchResponse where
  results : List SearchResult
  total : Int
  query : String
  limit : Int
  offset : Int
  deriving DecidableEq, Repr

/-- `domain.SuggestRequest` (`internal/domain/search.go`). -/
structure SuggestRequest where
  query : String
  limit : Int
  deriving DecidableEq, Repr

/-- `domain.Suggestion` (`internal/domain/search.go`). -/
structure Suggestion where
  text : String
  count : Int
  deriving DecidableEq, Repr

/-- `domain.SuggestResponse` (`internal/domain/search.go`). -/
structure SuggestResponse where
  suggestions : List Suggestion
  query : String
  deriving DecidableEq, Repr

/-! ## Search service facade (`internal/service/search_service.go`) -/

/-- Errors surfaced by the facade: `domain.BusinessError` (code + message) for
validation failures, or a `fmt.Errorf`-wrapped backend error. -/
inductive ServiceError where
  | businessError (code : String) (message : String)
  | wrapped (message : String)
  deriving DecidableEq, Repr

/-- The active backend adapter's `Search` method, abstracted: the service
only ever calls `searchRepo.Search` with the (mutated) request. -/
abbrev SearchBackend := SearchRequest → Except String (List SearchResult × Int)

/-- The active backend adapter's `Suggest` method, abstracted. -/
abbrev SuggestBackend := SuggestRequest → Except String (List Suggestion)

namespace SearchServiceImpl

/-- `SearchServiceImpl.Search` (`internal/service/search_service.go`, lines
40-73): reject an empty query with the `INVALID_SEARCH_QUERY` business error,
default `Limit <= 0` to 20 and `Offset < 0` to 0 (mutating the request that is
then passed to the repository), delegate, wrap a repository error as
`"search failed: ..."`, and echo query/limit/offset into the response. -/
def Search (searchRepo : SearchBackend) (req : SearchRequest) :
    Except ServiceError SearchResponse :=
  if req.query = "" then
    .error (.businessError "INVALID_SEARCH_QUERY" "Search query cannot be empty")
  else
    let req := { req with limit := if req.limit ≤ 0 then 20 else req.limit }
    let req := { req with offset := if req.offset < 0 then 0 else req.offset }
    match searchRepo req with
    | .error e => .error (.wrapped ("search failed: " ++ e))
    | .ok (results, total) =>
        .ok { results := results, total := total, query := req.query,
              limit := req.limit, offset := req.offset }

/-- `SearchServiceImpl.Suggest` (`internal/service/search_service.go`, lines
76-103): reject an empty query with `INVALID_SUGGEST_QUERY`, default
`Limit <= 0` to 10, delegate, wrap a repository error as
`"suggest failed: ..."`, and echo the query into the response. -/
def Suggest (searchRepo : SuggestBackend) (req : SuggestRequest) :
    Except ServiceError SuggestResponse :=
  if req.query = "" then
    .error (.businessError "INVALID_SUGGEST_QUERY" "Suggest query cannot be empty")
  else
    let req := { req with limit := if req.limit ≤ 0 then 10 else req.limit }
    match searchRepo req with
    | .error e => .error (.wrapped ("suggest failed: " ++ e))
    | .ok suggestions => .ok { suggestions := suggestions, query := req.query }

end SearchServiceImpl

/-- A stub backend used to instantiate theorems at concrete inputs: it
answers every search with no hits. -/
def emptyBackend : SearchBackend := fun _ => .ok ([], 0)

/-- A second stub backend, answering every search with a fixed error, used to
observe that the facade's behaviour on invalid input is backend-independent. -/
def failingBackend : SearchBackend := fun _ => .error "backend down"

/-! ## Reindex orchestrator (`internal/service/search_service.go`, lines
106-152)

The CMS metadata API is an external collaborator reached over HTTP.  One call
to `cmsClient.Get` followed by `json.Unmarshal` either fails to fetch, fails
to parse, or yields a page of items together with a reported total.  A run of
the paging loop is modelled against the list of successive outcomes the API
produces; exhausting the list stands for a fetch that never answers and is
treated as a fetch failure. -/

/-- Outcome of fetching and parsing one page from the CMS service. -/
inductive FetchResult where
  | fetchError
  | parseError
  | page (items : List Media) (total : Int)
  deriving DecidableEq, Repr

/-- Errors of the paging loop, mirroring the two `fmt.Errorf` sites in
`reindexWithPagination`. -/
inductive ReindexError where
  | fetchFailed (offset : Int)
  | parseFailed
  deriving DecidableEq, Repr

/-- The error strings produced by `reindexWithPagination`. -/
def ReindexError.message : ReindexError → String
  | .fetchFailed offset =>
      "failed to fetch media from CMS service at offset " ++ toString offset
  | .parseFailed => "failed to parse CMS response"

/-- `const batchSize = 100` in `reindexWithPagination`. -/
def batchSize : Nat := 100

/-- Two's-complement wrap-around of Go's 64-bit `int` addition; `offset`
lives in a Go `int`. -/
def wrap64 (x : Int) : Int :=
  (x + 2 ^ 63) % 2 ^ 64 - 2 ^ 63

/-- The paged-fetch loop of `reindexWithPagination` (lines 116-148): fetch a
page at `offset`, abort on a fetch or parse error, append the items to the
accumulator, break when the page is shorter than `batchSize`, otherwise
advance `offset` by `batchSize` and break when it exceeds the total reported
by the page just parsed (`cmsResponse.Total` holds the most recent page's
total). -/
def collectPages : List FetchResult → Int → List Media →
    Except ReindexError (List Media)
  | [], offset, _ => .error (.fetchFailed offset)
  | .fetchError :: _, offset, _ => .error (.fetchFailed offset)
  | .parseError :: _, _, _ => .error .parseFailed
  | .page items total :: rest, offset, allMedia =>
      let allMedia := allMedia ++ items
      if items.length < batchSize then .ok allMedia
      else
        let offset := wrap64 (offset + (batchSize : Int))
        if total < offset then .ok allMedia
        else collectPages rest offset allMedia

/-- Number of pages the loop of `reindexWithPagination` fetches (attempts
included) before stopping, on a given list of API outcomes.  Mirrors
`collectPages` step for step. -/
def pagesFetched : List FetchResult → Int → Nat
  | [], _ => 1
  | .fetchError :: _, _ => 1
  | .parseError :: _, _ => 1
  | .page items total :: rest, offset =>
      if items.length < batchSize then 1
      else
        let offset := wrap64 (offset + (batchSize : Int))
        if total < offset then 1
        else 1 + pagesFetched rest offset

/-- The total reported by the first page response, when the first fetch
produced a page at all. -/
def firstPageTotal : List FetchResult → Option Int
  | FetchResult.page _ total :: _ => some total
  | _ => none

/-- A backend adapter's `ReindexAll` (bulk replace), abstracted over the
backend's document-store state `σ`: it receives the accumulated media list
and the current store, and returns an optional error message together with
the store it leaves behind. -/
abbrev BulkReplace (σ : Type) := List Media → σ → Option String × σ

/-- `SearchServiceImpl.Reindex` / `reindexWithPagination`
(`internal/service/search_service.go`, lines 106-152): run the paging loop
from offset 0 with an empty accumulator; on any page failure return its error
without touching the search repository; otherwise hand the complete
accumulated list to the adapter's `ReindexAll`. -/
def reindexWithPagination {σ : Type} (searchRepoReindexAll : BulkReplace σ)
    (responses : List FetchResult) (store : σ) : Option String × σ :=
  match collectPages responses 0 [] with
  | .error e => (some e.message, store)
  | .ok allMedia => searchRepoReindexAll allMedia store

/-- Decidable form of "every page in the response list reports a total of at
most `T`". -/
def totalsBounded (T : Int) (r : FetchResult) : Bool :=
  match r with
  | .page _ total => total ≤ T
  | _ => true

/-! ## Relational-text adapter (`internal/repository/media_repository.go`) -/

namespace PostgresSearchRepository

/-- The `domain.SearchIndex` row built from a media record, as constructed
inline in `IndexMedia` and in the insert loop of `ReindexAll`: the combined
searchable content is title and description joined by a space, and both `ID`
and `MediaID` are the media's id. -/
def mediaToSearchIndex (m : Media) : SearchIndex :=
  { id := m.id
    mediaID := m.id
    title := m.title
    description := m.description
    content := m.title ++ " " ++ m.description
    type := m.type }

/-- The insert loop inside the transaction of `ReindexAll` (lines 240-256):
insert a row per media record in order; the first failing insert aborts with
the failing media's id.  Which insert fails (e.g. a constraint violation at
the database) is abstracted by the `insertFails` oracle. -/
def insertLoop (insertFails : Media → Bool) :
    List Media → List SearchIndex → Except String (List SearchIndex)
  | [], rows => .ok rows
  | m :: rest, rows =>
      if insertFails m then .error m.id
      else insertLoop insertFails rest (rows ++ [mediaToSearchIndex m])

/-- `PostgresSearchRepository.ReindexAll`
(`internal/repository/media_repository.go`, lines 224-259): inside one
transaction, `TRUNCATE search_index`, then insert a row per supplied media
record; a truncate failure, any insert failure, or a commit failure rolls the
transaction back, leaving the stored rows unchanged; on commit the store
holds exactly the freshly inserted rows.  `truncateFails` and `commitFails`
abstract database failures of those two statements. -/
def ReindexAll (truncateFails : Bool) (insertFails : Media → Bool)
    (commitFails : Bool) (mediaList : List Media) (store : List SearchIndex) :
    Option String × List SearchIndex :=
  if truncateFails then (some "failed to clear search index", store)
  else
    match insertLoop insertFails mediaList [] with
    | .error mid => (some ("failed to index media " ++ mid), store)
    | .ok rows =>
        if commitFails then (some "commit failed", store)
        else (none, rows)

/-- `searchIndexToMedia` (`media_repository.go`, lines 262-270): only the
fields present in the row are copied back; `Status` is set to `ready`
("Search results are ready") and the remaining fields keep Go zero values. -/
def searchIndexToMedia (row : SearchIndex) : Media :=
  { id := row.mediaID
    title := row.title
    description := row.description
    filePath := ""
    fileSize := 0
    duration := 0
    format := ""
    type := row.type
    status := StatusReady
    createdAt := 0
    updatedAt := 0
    deletedAt := none }

/-- The WHERE predicate accumulated by `Search` (lines 110-122): the
full-text condition `to_tsvector('english', content) @@
plainto_tsquery('english', ?)` when a query is present — its Postgres
semantics abstracted as the oracle `tsMatch content query` — conjoined with
the exact type condition when a type filter is present. -/
def searchPredicate (tsMatch : String → String → Bool) (req : SearchRequest)
    (row : SearchIndex) : Bool :=
  (req.query == "" || tsMatch row.content req.query) &&
    (req.type == "" || row.type == req.type)

/-- `PostgresSearchRepository.Search` (`media_repository.go`, lines 105-155),
run against a store holding the rows of `search_index`: count the rows
matching the WHERE predicate into `total` (the count query carries the same
predicate, before any pagination), normalize `limit`/`offset` (`<= 0` → 20,
`< 0` → 0), order by `ts_rank` descending — the rank value abstracted as the
oracle `rank content query` — apply `OFFSET` then `LIMIT`, and convert each
returned row with the fixed neutral score `1.0`. -/
def Search (tsMatch : String → String → Bool) (rank : String → String → Int)
    (req : SearchRequest) (rows : List SearchIndex) :
    List SearchResult × Int :=
  let matching := rows.filter (searchPredicate tsMatch req)
  let total : Int := matching.length
  let limit := if req.limit ≤ 0 then 20 else req.limit
  let offset := if req.offset < 0 then 0 else req.offset
  let ordered :=
    if req.query == "" then matching
    else List.insertionSort
      (fun a b => rank b.content req.query ≤ rank a.content req.query) matching
  let pageRows := (ordered.drop offset.toNat).take limit.toNat
  (pageRows.map (fun row => { media := searchIndexToMedia row, score := 1 }), total)

/-- Case-insensitive containment of `needle` in `hay`, on character lists. -/
def containsChars (needle : List Char) : List Char → Bool
  | [] => needle.isEmpty
  | c :: rest => needle.isPrefixOf (c :: rest) || containsChars needle rest

/-- The `title ILIKE '%' || query || '%'` condition of `Suggest`:
case-insensitive substring match of the query against the title (assuming,
as every claim does, a query without SQL wildcard characters). -/
def titleLike (query title : String) : Bool :=
  containsChars (query.data.map Char.toLower) (title.data.map Char.toLower)

/-- `GROUP BY title` with `COUNT(*)`: one group per distinct title, in first
occurrence order, carrying the number of occurrences (the recursion keeps the
groups of the tail and drops the head's key from them). -/
def groupCounts : List String → List (String × Nat)
  | [] => []
  | t :: rest =>
      (t, 1 + rest.countP (fun s => s == t)) ::
        (groupCounts rest).filter (fun p => !(p.1 == t))

/-- `PostgresSearchRepository.Suggest` (`media_repository.go`, lines
158-191), run against the rows of `search_index`: normalize `limit`
(`<= 0` → 10), keep the rows whose title matches the query case-insensitively
as a substring, group them by literal title with their counts, order the
groups by count descending (`ORDER BY count DESC`; ties in an unspecified
order, here first-occurrence via a stable sort), and keep `LIMIT` groups. -/
def Suggest (req : SuggestRequest) (rows : List SearchIndex) :
    List Suggestion :=
  let limit := if req.limit ≤ 0 then 10 else req.limit
  let matching := rows.filter (fun row => titleLike req.query row.title)
  let groups := groupCounts (matching.map (fun row => row.title))
  let ordered := List.insertionSort (fun a b => b.2 ≤ a.2) groups
  (ordered.take limit.toNat).map (fun g => { text := g.1, count := (g.2 : Int) })

end PostgresSearchRepository

/-! ## Search-engine adapter
(`internal/repository/elasticsearch_search_repository.go`) -/

namespace ElasticsearchSearchRepository

/-- The document stored in the engine's index, as built by `mediaToDocument`
(lines 211-229): every media field plus the combined searchable content. -/
structure EsDocument where
  id : String
  title : String
  description : String
  content : String
  type : MediaType
  status : MediaStatus
  filePath : String
  fileSize : Int
  duration : Int
  format : String
  createdAt : Int
  updatedAt : Int
  deriving DecidableEq, Repr

/-- `mediaToDocument` (lines 211-229). -/
def mediaToDocument (m : Media) : EsDocument :=
  { id := m.id
    title := m.title
    description := m.description
    content := m.title ++ " " ++ m.description
    type := m.type
    status := m.status
    filePath := m.filePath
    fileSize := m.fileSize
    duration := m.duration
    format := m.format
    createdAt := m.createdAt
    updatedAt := m.updatedAt }

/-- The query document built by `buildSearchQuery` (lines 156-208), reduced
to the fields that determine the engine's answer: `size` and `from` are the
request's limit and offset, the `multi_match` text when a query is present
(`""` stands for the `match_all` branch), and the `term` filter on type when
present (`""` stands for no filter).  The sort clause is fixed: score
descending, then `created_at` descending. -/
structure EsQuery where
  size : Int
  fromOffset : Int
  queryText : String
  typeFilter : String
  deriving DecidableEq, Repr

/-- `buildSearchQuery` (lines 156-208). -/
def buildSearchQuery (req : SearchRequest) : EsQuery :=
  { size := req.limit
    fromOffset := req.offset
    queryText := req.query
    typeFilter := req.type }

/-- Modelled from the spec: the Elasticsearch engine itself is an external
collaborator (only the client wrapper in `pkg/elasticsearch/client.go` is in
the repository).  Per §4.2 of the spec, the engine answers a query document
by filtering its documents with the `multi_match` text condition — abstracted
as the oracle `docMatches doc text` — and the `term` type filter, sorting by
relevance score descending (score abstracted as the oracle `score doc`) with
creation time descending as tie-break, returning `size` hits starting at
`from`, while `Hits.Total.Value` reports the full match count. -/
def engineExecute (docMatches : EsDocument → String → Bool)
    (score : EsDocument → Int) (q : EsQuery) (docs : List EsDocument) :
    List (EsDocument × Int) × Int :=
  let matchingDocs := docs.filter (fun d =>
    (q.queryText == "" || docMatches d q.queryText) &&
      (q.typeFilter == "" || d.type == q.typeFilter))
  let ordered := List.insertionSort
    (fun a b => score b < score a ∨ (score a = score b ∧ b.createdAt ≤ a.createdAt))
    matchingDocs
  let hits := (ordered.drop q.fromOffset.toNat).take q.size.toNat
  (hits.map (fun d => (d, score d)), matchingDocs.length)

/-- `hitToMedia` (lines 232-269): copy the document fields back; a document
with an empty status is reported as `ready` ("we only index ready content"). -/
def hitToMedia (d : EsDocument) : Media :=
  { id := d.id
    title := d.title
    description := d.description
    filePath := d.filePath
    fileSize := d.fileSize
    duration := d.duration
    format := d.format
    type := d.type
    status := if d.status == "" then StatusReady else d.status
    createdAt := 0
    updatedAt := 0
    deletedAt := none }

/-- `ElasticsearchSearchRepository.Search` (lines 25-47): build the query
document from the request, execute it against the engine, and convert each
hit with its score; the returned total is the engine's hit-count metadata. -/
def Search (docMatches : EsDocument → String → Bool) (score : EsDocument → Int)
    (req : SearchRequest) (docs : List EsDocument) :
    List SearchResult × Int :=
  let answer := engineExecute docMatches score (buildSearchQuery req) docs
  (answer.1.map (fun h => { media := hitToMedia h.1, score := h.2 }), answer.2)

/-- `ElasticsearchSearchRepository.ReindexAll` (lines 123-151): clear the
whole index (`ClearIndex`, a delete-by-query `match_all`); if the supplied
list is empty, report success with nothing indexed; otherwise bulk-insert the
documents in one batched call.  A clear failure leaves the store as it was; a
bulk failure happens after the delete, leaving the store empty (the
non-atomic delete-then-insert window).  `clearFails` and `bulkFails` abstract
engine failures of the two calls. -/
def ReindexAll (clearFails : Bool) (bulkFails : Bool)
    (mediaList : List Media) (store : List EsDocument) :
    Option String × List EsDocument :=
  if clearFails then (some "failed to clear index", store)
  else if mediaList.length = 0 then (none, [])
  else if bulkFails then (some "failed to bulk index media", [])
  else (none, mediaList.map mediaToDocument)

end ElasticsearchSearchRepository

/-! ## Index synchronizer (`internal/service/media_event_handler.go`) -/

/-- A media lifecycle event, as delivered to the handler: `HandleMediaCreated`
and `HandleMediaUpdated` receive the full record, `HandleMediaDeleted` only
the media id. -/
inductive MediaEvent where
  | created (media : Media)
  | updated (media : Media)
  | deleted (mediaID : String)
  deriving DecidableEq, Repr

/-- The single adapter call a handler performs: `searchRepo.IndexMedia`
(upsert) or `searchRepo.RemoveFromIndex` (delete). -/
inductive AdapterCall where
  | indexMedia (media : Media)
  | removeFromIndex (mediaID : String)
  deriving DecidableEq, Repr

namespace MediaEventHandler

/-- `MediaEventHandler` (`media_event_handler.go`, lines 24-39): each of the
three handlers logs and then performs exactly one repository call, whose
error it returns unchanged — `HandleMediaCreated` and `HandleMediaUpdated`
call `IndexMedia` with the event's record, `HandleMediaDeleted` calls
`RemoveFromIndex` with the event's id.  No branching on the record's status,
no retry. -/
def handle : MediaEvent → AdapterCall
  | .created media => .indexMedia media
  | .updated media => .indexMedia media
  | .deleted mediaID => .removeFromIndex mediaID

end MediaEventHandler

/-! ## Concrete fixtures -/

/-- A processed ("ready") media record. -/
def mediaReady : Media :=
  { id := "m-ready-1"
    title := "Golang Tutorial"
    description := "Learn Go"
    filePath := "/uploads/m-ready-1.mp4"
    fileSize := 1024
    duration := 300
    format := "mp4"
    type := "video"
    status := StatusReady
    createdAt := 10
    updatedAt := 10
    deletedAt := none }

/-- A media record still in the `uploading` state: not yet eligible for the
search index. -/
def mediaUploading : Media :=
  { id := "m-up-1"
    title := "Pending Upload"
    description := "not processed yet"
    filePath := "/uploads/m-up-1.mp4"
    fileSize := 2048
    duration := 0
    format := "mp4"
    type := "video"
    status := StatusUploading
    createdAt := 20
    updatedAt := 20
    deletedAt := none }

/-- API outcomes whose second page fetch fails, after a full first page. -/
def respsPage2Fail : List FetchResult :=
  [FetchResult.page (List.replicate 100 mediaReady) 300, FetchResult.fetchError]

/-- A bulk replace that would wipe the store if it were ever invoked; used to
observe that an aborted reindex never reaches the adapter. -/
def destructiveBulk : BulkReplace (List SearchIndex) := fun _ _ => (none, [])

/-- API outcomes exercising the loop's safety bound: the first page reports
total 150, later pages report ever-larger totals.  After two full pages the
running offset is 200, already beyond the first page's reported total. -/
def respsShrink : List FetchResult :=
  [FetchResult.page (List.replicate 100 mediaReady) 150,
   FetchResult.page (List.replicate 100 mediaReady) 1000000,
   FetchResult.page [] 0]

/-- A whitespace-only search request. -/
def whitespaceRequest : SearchRequest :=
  { query := " ", type := "", limit := 10, offset := 0 }

/-- An empty-query search request. -/
def emptyRequest : SearchRequest :=
  { query := "", type := "", limit := 10, offset := 0 }

/-- A stub adapter `Suggest` answering with no suggestions. -/
def emptySuggestBackend : SuggestBackend := fun _ => .ok []

/-- A document row unrelated to the fixtures above, standing for pre-existing
index content. -/
def preexistingRow : SearchIndex :=
  { id := "old-1", mediaID := "old-1", title := "Old Document",
    description := "stale", content := "Old Document stale", type := "podcast" }

/-- A request relying on defaults: zero limit, negative offset. -/
def defaultsRequest : SearchRequest :=
  { query := "x", type := "", limit := 0, offset := -5 }

/-- A request with a very large page size, to observe the absence of an upper
clamp. -/
def bigLimitRequest : SearchRequest :=
  { query := "x", type := "", limit := 1000000, offset := 0 }

/-- A suggest request relying on the default limit. -/
def defaultsSuggestRequest : SuggestRequest :=
  { query := "y", limit := -1 }

/-- A small `search_index` store. -/
def sampleRows : List SearchIndex :=
  [PostgresSearchRepository.mediaToSearchIndex mediaReady, preexistingRow]

/-- A small engine document store. -/
def sampleDocs : List ElasticsearchSearchRepository.EsDocument :=
  [ElasticsearchSearchRepository.mediaToDocument mediaReady,
   ElasticsearchSearchRepository.mediaToDocument mediaUploading]

/-- A valid one-hit-per-page search request. -/
def sampleSearchRequest : SearchRequest :=
  { query := "go", type := "", limit := 1, offset := 0 }

/-- The `search_index` rows of the spec's suggestion-ordering example:
titles "Go Basics", "Go Basics", "Go Advanced". -/
def goRows : List SearchIndex :=
  [ { id := "1", mediaID := "1", title := "Go Basics",
      description := "", content := "Go Basics ", type := "video" },
    { id := "2", mediaID := "2", title := "Go Basics",
      description := "", content := "Go Basics ", type := "video" },
    { id := "3", mediaID := "3", title := "Go Advanced",
      description := "", content := "Go Advanced ", type := "video" } ]

/-! ## Claim C1 — status filtering during reindex -/

/-- C1 (code bug evidence): the reindex pipeline performs no status
filtering.  On a CMS answer consisting of one page holding a single
`uploading` record, `Reindex()` succeeds and the rebuilt Postgres index
contains that record's document, although `Media.CanBeSearched` — the code's
own eligibility predicate ("returns true if the media can appear in search
results") — is false for it.  `reindexWithPagination` accumulates every
fetched record (lines 134-135 have no status check) and
`PostgresSearchRepository.ReindexAll` indexes whatever it is given. -/
theorem reindex_indexes_nonready :
    reindexWithPagination
        (PostgresSearchRepository.ReindexAll false (fun _ => false) false)
        [FetchResult.page [mediaUploading] 1] []
      = (none, [PostgresSearchRepository.mediaToSearchIndex mediaUploading]) ∧
    mediaUploading.CanBeSearched = false := by
  exact ⟨rfl, rfl⟩

/-! ## Claim C2 — abort on page failure, no partial adoption -/

/-- C2: if the paged scan fails on any page (a fetch error or a parse error
at any page index), `Reindex()` returns that error and the backend store is
exactly what it was before the call, whatever `ReindexAll` the active adapter
supplies — the adapter is never consulted. -/
theorem reindex_abort_on_page_failure {σ : Type} (bulk : BulkReplace σ)
    (responses : List FetchResult) (store : σ) (e : ReindexError)
    (h : collectPages responses 0 [] = .error e) :
    reindexWithPagination bulk responses store = (some e.message, store) := by
  unfold reindexWithPagination
  rw [h]

/-- C2 witness: a full first page then a failing page-2 fetch, run against a
bulk replace that would wipe the store: the orchestrator reports the offset-100
fetch failure and the pre-existing document survives untouched. -/
theorem reindex_abort_on_page_failure_witness :
    reindexWithPagination destructiveBulk respsPage2Fail
        [PostgresSearchRepository.mediaToSearchIndex mediaReady]
      = (some (ReindexError.fetchFailed 100).message,
         [PostgresSearchRepository.mediaToSearchIndex mediaReady]) := by
  exact reindex_abort_on_page_failure destructiveBulk respsPage2Fail _ _ rfl

/-! ## Claim C10 — reindex over an empty source empties the index -/

/-- C10: when the first page is empty (so the accumulated media list is
empty), the orchestrator still calls `ReindexAll` with the empty list, and
both adapters clear their whole document set, insert nothing and report
success: the Postgres transaction truncates and commits with zero inserts,
and the Elasticsearch adapter clears the index and returns before its bulk
call (so even a failing bulk path — arbitrary `bulkFails` — is never
reached).  Whatever documents were stored before, the index ends up empty. -/
theorem reindex_empty_source_clears_index (total : Int)
    (insertFails : Media → Bool) (bulkFails : Bool)
    (pgStore : List SearchIndex)
    (esStore : List ElasticsearchSearchRepository.EsDocument) :
    reindexWithPagination
        (PostgresSearchRepository.ReindexAll false insertFails false)
        [FetchResult.page [] total] pgStore = (none, []) ∧
    reindexWithPagination
        (ElasticsearchSearchRepository.ReindexAll false bulkFails)
        [FetchResult.page [] total] esStore = (none, []) := by
  exact ⟨rfl, rfl⟩

/-! ## Claim C7 — synchronizer event translation -/

/-- C7 counterexample: an update event for a record that is out of the
`ready` state (here: `uploading`) is translated to an `IndexMedia` upsert,
not to the `RemoveFromIndex` delete the claim requires for updates that move
a record out of `ready`. -/
theorem handler_upserts_nonready_update :
    MediaEventHandler.handle (.updated mediaUploading)
      = AdapterCall.indexMedia mediaUploading ∧
    mediaUploading.status ≠ StatusReady := by
  exact ⟨rfl, by decide⟩

/-- C7 amended: the synchronizer is a pure translation from one lifecycle
event to exactly one adapter call, but without any status routing: a Created
or Updated event triggers exactly one upsert (`IndexMedia`) regardless of the
record's status, and a Deleted event triggers exactly one delete
(`RemoveFromIndex`); no event triggers more than one call or a retry. -/
theorem handler_pure_translation (m : Media) (mediaID : String) :
    MediaEventHandler.handle (.created m) = AdapterCall.indexMedia m ∧
    MediaEventHandler.handle (.updated m) = AdapterCall.indexMedia m ∧
    MediaEventHandler.handle (.deleted mediaID)
      = AdapterCall.removeFromIndex mediaID := by
  exact ⟨rfl, rfl, rfl⟩

/-! ## Claim C4 — empty-query validation -/

/-- C4 counterexample: a whitespace-only query is not trimmed by the facade.
`Search` on the query `" "` does not fail with the invalid-query business
error: it calls the backend and returns its answer. -/
theorem search_whitespace_query_not_rejected :
    SearchServiceImpl.Search emptyBackend whitespaceRequest
      = .ok { results := [], total := 0, query := " ", limit := 10, offset := 0 } := by
  rfl

/-- C4 amended: the facade rejects exactly the query that is the empty
string (no trimming): for every backend and request, `Search` returns the
`INVALID_SEARCH_QUERY` business error iff the query is `""`, and on the
empty query the answer is backend-independent (the adapter is not
consulted); every other query — whitespace-only ones included — is passed to
the backend and never yields the business error. -/
theorem search_invalid_query_iff_empty (backend : SearchBackend)
    (req : SearchRequest) :
    ((∃ code msg, SearchServiceImpl.Search backend req
        = .error (.businessError code msg)) ↔ req.query = "") ∧
    (req.query = "" → ∀ backend' : SearchBackend,
      SearchServiceImpl.Search backend req
        = SearchServiceImpl.Search backend' req) := by
  constructor
  · constructor
    · rintro ⟨code, msg, hcm⟩
      by_contra hne
      simp only [SearchServiceImpl.Search, if_neg hne] at hcm
      revert hcm
      rcases backend { query := req.query, type := req.type, limit := if req.limit ≤ 0 then 20 else req.limit, offset := if req.offset < 0 then 0 else req.offset } with e | ⟨results, total⟩ <;>
        simp
    · intro hq
      refine ⟨"INVALID_SEARCH_QUERY", "Search query cannot be empty", ?_⟩
      simp [SearchServiceImpl.Search, hq]
  · intro hq backend'
    simp [SearchServiceImpl.Search, hq]

/-- C4 witness: on the empty query the facade reports the invalid-query
business error and its answer does not depend on the backend. -/
theorem search_invalid_query_iff_empty_witness :
    (∃ code msg, SearchServiceImpl.Search emptyBackend emptyRequest
        = .error (.businessError code msg)) ∧
    SearchServiceImpl.Search emptyBackend emptyRequest
      = SearchServiceImpl.Search failingBackend emptyRequest := by
  have h := search_invalid_query_iff_empty emptyBackend emptyRequest
  exact ⟨h.1.mpr rfl, h.2 rfl failingBackend⟩

/-! ## Claim C3 — transactional bulk replace in the relational adapter -/

/-- The insert loop succeeds exactly when no insert fails, and then produces
the accumulator extended by one row per supplied record, in order. -/
theorem insertLoop_eq_ok {insertFails : Media → Bool} :
    ∀ (l : List Media) (acc rows : List SearchIndex),
      PostgresSearchRepository.insertLoop insertFails l acc = .ok rows →
      rows = acc ++ l.map PostgresSearchRepository.mediaToSearchIndex ∧
        ∀ m ∈ l, insertFails m = false := by
  intro l
  induction l with
  | nil =>
      intro acc rows h
      simp only [PostgresSearchRepository.insertLoop, Except.ok.injEq] at h
      simp [h]
  | cons m rest ih =>
      intro acc rows h
      by_cases hf : insertFails m
      · simp [PostgresSearchRepository.insertLoop, hf] at h
      · simp only [PostgresSearchRepository.insertLoop, hf, if_false, Bool.false_eq_true] at h
        have hrec := ih (acc ++ [PostgresSearchRepository.mediaToSearchIndex m]) rows h
        constructor
        · simp [hrec.1]
        · intro m' hm'
          rcases List.mem_cons.mp hm' with hm' | hm'
          · subst hm'; simpa using hf
          · exact hrec.2 m' hm'

/-- C3: the relational adapter's bulk replace is all-or-nothing.  For every
input list and every failure pattern of the transaction's statements: a fully
successful run leaves the store holding exactly one row per supplied record
(the old rows are gone); any failing run — truncate, any single insert, or
commit — leaves the store exactly as it was (rollback); and whenever some
supplied record's insert fails, the run does report a failure. -/
theorem ReindexAll_all_or_nothing (truncateFails : Bool)
    (insertFails : Media → Bool) (commitFails : Bool)
    (mediaList : List Media) (store : List SearchIndex) :
    ((PostgresSearchRepository.ReindexAll truncateFails insertFails commitFails
        mediaList store).1 = none →
      (PostgresSearchRepository.ReindexAll truncateFails insertFails commitFails
        mediaList store).2
        = mediaList.map PostgresSearchRepository.mediaToSearchIndex) ∧
    ((PostgresSearchRepository.ReindexAll truncateFails insertFails commitFails
        mediaList store).1 ≠ none →
      (PostgresSearchRepository.ReindexAll truncateFails insertFails commitFails
        mediaList store).2 = store) ∧
    ((∃ m ∈ mediaList, insertFails m = true) →
      (PostgresSearchRepository.ReindexAll truncateFails insertFails commitFails
        mediaList store).1 ≠ none) := by
  cases truncateFails with
  | true =>
      refine ⟨?_, ?_, ?_⟩ <;> simp [PostgresSearchRepository.ReindexAll]
  | false =>
      rcases hl : PostgresSearchRepository.insertLoop insertFails mediaList []
        with mid | rows
      · refine ⟨?_, ?_, ?_⟩ <;> simp [PostgresSearchRepository.ReindexAll, hl]
      · have hc := insertLoop_eq_ok mediaList [] rows hl
        cases commitFails with
        | true =>
            refine ⟨?_, ?_, ?_⟩ <;> simp [PostgresSearchRepository.ReindexAll, hl]
        | false =>
            refine ⟨?_, ?_, ?_⟩
            · intro _
              simp only [PostgresSearchRepository.ReindexAll, hl]
              simpa using hc.1
            · intro hne
              exact absurd (by simp [PostgresSearchRepository.ReindexAll, hl]) hne
            · rintro ⟨m, hm, hfm⟩
              rw [hc.2 m hm] at hfm
              exact Bool.noConfusion hfm

/-- C3 witness: with no failures, replacing the store `[preexistingRow]` by
the single ready record yields exactly that record's row; with the insert of
that record failing, the transaction rolls back and the old store survives. -/
theorem ReindexAll_all_or_nothing_witness :
    (PostgresSearchRepository.ReindexAll false (fun _ => false) false
        [mediaReady] [preexistingRow]).2
      = [PostgresSearchRepository.mediaToSearchIndex mediaReady] ∧
    (PostgresSearchRepository.ReindexAll false (fun m => m.id == "m-ready-1") false
        [mediaReady] [preexistingRow]).2 = [preexistingRow] := by
  constructor
  · exact (ReindexAll_all_or_nothing false (fun _ => false) false
      [mediaReady] [preexistingRow]).1 rfl
  · exact (ReindexAll_all_or_nothing false (fun m => m.id == "m-ready-1") false
      [mediaReady] [preexistingRow]).2.1
      ((ReindexAll_all_or_nothing false (fun m => m.id == "m-ready-1") false
        [mediaReady] [preexistingRow]).2.2
        ⟨mediaReady, List.mem_singleton.mpr rfl, rfl⟩)

/-! ## Claim C8 — facade parameter normalization -/

/-- C8: for every validated (non-empty-query) request, `Search` hands the
backend the request with limit defaulted to 20 when `≤ 0` and kept unchanged
otherwise (no upper clamp), offset defaulted to 0 when negative, and echoes
the query with the normalized limit and offset in the response envelope;
`Suggest` does the same with default limit 10. -/
theorem facade_normalization (backend : SearchBackend)
    (sbackend : SuggestBackend) (req : SearchRequest) (sreq : SuggestRequest)
    (hq : req.query ≠ "") (hsq : sreq.query ≠ "") :
    SearchServiceImpl.Search backend req
      = (match backend (SearchRequest.mk req.query req.type
            (if req.limit ≤ 0 then 20 else req.limit)
            (if req.offset < 0 then 0 else req.offset)) with
         | .error e => .error (.wrapped ("search failed: " ++ e))
         | .ok (results, total) =>
             .ok (SearchResponse.mk results total req.query
               (if req.limit ≤ 0 then 20 else req.limit)
               (if req.offset < 0 then 0 else req.offset))) ∧
    (0 < req.limit → (if req.limit ≤ 0 then 20 else req.limit) = req.limit) ∧
    SearchServiceImpl.Suggest sbackend sreq
      = (match sbackend (SuggestRequest.mk sreq.query
            (if sreq.limit ≤ 0 then 10 else sreq.limit)) with
         | .error e => .error (.wrapped ("suggest failed: " ++ e))
         | .ok suggestions =>
             .ok (SuggestResponse.mk suggestions sreq.query)) := by
  refine ⟨?_, ?_, ?_⟩
  · simp [SearchServiceImpl.Search, hq]
  · intro h
    exact if_neg (by omega)
  · simp [SearchServiceImpl.Suggest, hsq]

/-- C8 witness: a zero limit becomes 20, a negative offset becomes 0, the
envelope echoes query/limit/offset; a limit of 1000000 is not clamped; a
negative suggest limit becomes 10. -/
theorem facade_normalization_witness :
    SearchServiceImpl.Search emptyBackend defaultsRequest
      = .ok { results := [], total := 0, query := "x", limit := 20, offset := 0 } ∧
    (if (1000000 : Int) ≤ 0 then 20 else (1000000 : Int)) = 1000000 ∧
    SearchServiceImpl.Suggest emptySuggestBackend defaultsSuggestRequest
      = .ok { suggestions := [], query := "y" } := by
  have h := facade_normalization emptyBackend emptySuggestBackend
    defaultsRequest defaultsSuggestRequest (by decide) (by decide)
  have h2 := facade_normalization emptyBackend emptySuggestBackend
    bigLimitRequest defaultsSuggestRequest (by decide) (by decide)
  exact ⟨h.1.trans rfl, h2.2.1 (by decide), h.2.2.trans rfl⟩

/-! ## Claim C5 — pagination loop termination bound -/

/-- C5 counterexample: on `respsShrink` the first page reports total 150, and
after two full pages the running offset is 200 > 150, so per the claim the
loop should stop without another fetch; the code nevertheless fetches a third
page, because its safety bound compares the offset against
`cmsResponse.Total` of the page parsed most recently (here 1000000), not the
first page's total. -/
theorem safety_bound_ignores_first_total :
    pagesFetched respsShrink 0 = 3 ∧
    firstPageTotal respsShrink = some 150 ∧
    2 * (batchSize : Int) > 150 := by
  refine ⟨rfl, rfl, by norm_num [batchSize]⟩

/-- 64-bit wrap-around is the identity inside the representable range. -/
theorem wrap64_eq_self {x : Int} (h1 : -(2 ^ 63) ≤ x) (h2 : x < 2 ^ 63) :
    wrap64 x = x := by
  have h63 : (2 : Int) ^ 63 = 9223372036854775808 := by norm_num
  have h64 : (2 : Int) ^ 64 = 18446744073709551616 := by norm_num
  rw [h63] at h1 h2
  unfold wrap64
  rw [h63, h64, Int.emod_eq_of_lt (by omega) (by omega)]
  omega

/-- Bounding lemma behind C5, generalized over the running offset: while the
loop keeps going, each consumed full page forced `offset + batchSize ≤` that
page's reported total `≤ T`, so the offset climbs by `batchSize` per page and
the loop consumes at most `(T - offset) / batchSize + 1` pages. -/
theorem pagesFetched_le_aux (T : Int) (hT63 : T + (batchSize : Int) < 2 ^ 63) :
    ∀ responses : List FetchResult,
      (∀ r ∈ responses, totalsBounded T r = true) →
      ∀ offset : Int, 0 ≤ offset → offset ≤ T →
        pagesFetched responses offset ≤ (T - offset).toNat / batchSize + 1 := by
  intro responses
  induction responses with
  | nil =>
      intro _ offset _ _
      simp [pagesFetched]
  | cons r rest ih =>
      intro hb offset h0 hT
      cases r with
      | fetchError => simp [pagesFetched]
      | parseError => simp [pagesFetched]
      | page items total =>
          have htot : total ≤ T := by
            simpa [totalsBounded] using
              hb (FetchResult.page items total) (List.mem_cons_self _ _)
          by_cases hshort : items.length < batchSize
          · simp [pagesFetched, hshort]
          · have hwrap : wrap64 (offset + (batchSize : Int))
                = offset + (batchSize : Int) := by
              apply wrap64_eq_self
              · have hpow : (0 : Int) ≤ 2 ^ 63 := by positivity
                omega
              · calc offset + (batchSize : Int) ≤ T + (batchSize : Int) := by omega
                  _ < 2 ^ 63 := hT63
            by_cases hstop : total < wrap64 (offset + (batchSize : Int))
            · simp [pagesFetched, hshort, hstop]
            · rw [hwrap] at hstop
              push_neg at hstop
              have hstep : pagesFetched (FetchResult.page items total :: rest) offset
                  = 1 + pagesFetched rest (offset + (batchSize : Int)) := by
                simp only [pagesFetched, if_neg hshort, hwrap]
                rw [if_neg (by omega)]
              have hrec := ih (fun r hr => hb r (List.mem_cons_of_mem _ hr))
                (offset + (batchSize : Int)) (by simp [batchSize]; omega)
                (le_trans hstop htot)
              rw [hstep]
              have hbs : batchSize = 100 := rfl
              rw [hbs] at hstop hrec ⊢
              push_cast at hstop hrec ⊢
              omega

/-- C5 amended: the loop stops on a page shorter than the batch size, and its
safety bound compares the running offset with the total reported by the most
recently parsed page (not the first page's total).  Consequently, whenever
every total the API ever reports is at most `T` (with `T + batchSize` inside
the 64-bit range), the loop fetches at most `T / batchSize + 1` pages — but a
source whose reported total keeps growing can prolong the scan indefinitely,
as `safety_bound_ignores_first_total` shows the first page's total imposes no
bound. -/
theorem pagesFetched_bounded_by_latest_totals (T : Int)
    (responses : List FetchResult) (hT : 0 ≤ T)
    (hT63 : T + (batchSize : Int) < 2 ^ 63)
    (hb : ∀ r ∈ responses, totalsBounded T r = true) :
    pagesFetched responses 0 ≤ T.toNat / batchSize + 1 := by
  have h := pagesFetched_le_aux T hT63 responses hb 0 le_rfl hT
  simpa using h

/-- C5 witness: on `respsShrink` every reported total is at most 1000000, so
the loop fetches at most 10001 pages. -/
theorem pagesFetched_bounded_witness :
    pagesFetched respsShrink 0 ≤ (1000000 : Int).toNat / batchSize + 1 := by
  exact pagesFetched_bounded_by_latest_totals 1000000 respsShrink
    (by norm_num) (by norm_num [batchSize]) (by decide)

/-! ## Claim C6 — page-size bound and unpaged total, both adapters -/

/-- C6: on every valid request (non-empty query, positive limit, non-negative
offset — what the facade guarantees) both adapters return at most `limit`
results, and each adapter's `total` is the count of the documents matching
the filter predicate (text condition plus optional type filter) of the whole
store, unaffected by `limit` and `offset`.  The Postgres text-match and rank
and the engine's match and score are universally quantified oracles, so the
bounds hold whatever the stores' text-search semantics. -/
theorem search_page_bound_and_unpaged_total
    (tsMatch : String → String → Bool) (rank : String → String → Int)
    (docMatches : ElasticsearchSearchRepository.EsDocument → String → Bool)
    (score : ElasticsearchSearchRepository.EsDocument → Int)
    (req : SearchRequest) (rows : List SearchIndex)
    (docs : List ElasticsearchSearchRepository.EsDocument)
    (hq : req.query ≠ "") (hl : 0 < req.limit) (ho : 0 ≤ req.offset) :
    (PostgresSearchRepository.Search tsMatch rank req rows).1.length
      ≤ req.limit.toNat ∧
    (PostgresSearchRepository.Search tsMatch rank req rows).2
      = ((rows.filter
          (PostgresSearchRepository.searchPredicate tsMatch req)).length : Int) ∧
    (∀ limit' offset' : Int,
      (PostgresSearchRepository.Search tsMatch rank
          (SearchRequest.mk req.query req.type limit' offset') rows).2
        = (PostgresSearchRepository.Search tsMatch rank req rows).2) ∧
    (ElasticsearchSearchRepository.Search docMatches score req docs).1.length
      ≤ req.limit.toNat ∧
    (ElasticsearchSearchRepository.Search docMatches score req docs).2
      = ((docs.filter (fun d =>
          (req.query == "" || docMatches d req.query) &&
            (req.type == "" || d.type == req.type))).length : Int) ∧
    (∀ limit' offset' : Int,
      (ElasticsearchSearchRepository.Search docMatches score
          (SearchRequest.mk req.query req.type limit' offset') docs).2
        = (ElasticsearchSearchRepository.Search docMatches score req docs).2) := by
  have hlim : (if req.limit ≤ 0 then 20 else req.limit) = req.limit :=
    if_neg (by omega)
  refine ⟨?_, ?_, ?_, ?_, ?_, ?_⟩
  · simp only [PostgresSearchRepository.Search, hlim, List.length_map]
    exact List.length_take_le _ _
  · rfl
  · intro limit' offset'
    rfl
  · simp only [ElasticsearchSearchRepository.Search,
      ElasticsearchSearchRepository.engineExecute,
      ElasticsearchSearchRepository.buildSearchQuery, List.length_map]
    exact List.length_take_le _ _
  · rfl
  · intro limit' offset'
    rfl

/-- C6 witness: with limit 1 against two-document stores, both adapters
return at most one hit, and the Postgres total is unchanged under limit 50 /
offset 7. -/
theorem search_page_bound_and_unpaged_total_witness :
    (PostgresSearchRepository.Search (fun _ _ => true) (fun _ _ => 0)
        sampleSearchRequest sampleRows).1.length ≤ (1 : Int).toNat ∧
    (ElasticsearchSearchRepository.Search (fun _ _ => true) (fun _ => 1)
        sampleSearchRequest sampleDocs).1.length ≤ (1 : Int).toNat ∧
    (PostgresSearchRepository.Search (fun _ _ => true) (fun _ _ => 0)
        (SearchRequest.mk "go" "" 50 7) sampleRows).2
      = (PostgresSearchRepository.Search (fun _ _ => true) (fun _ _ => 0)
        sampleSearchRequest sampleRows).2 := by
  have h := search_page_bound_and_unpaged_total (fun _ _ => true) (fun _ _ => 0)
    (fun _ _ => true) (fun _ => 1) sampleSearchRequest sampleRows sampleDocs
    (by decide) (by decide) (by decide)
  exact ⟨h.1, h.2.2.2.1, h.2.2.1 50 7⟩

/-! ## Claim C9 — suggestion grouping, counting and ordering -/

/-- Every group produced by `groupCounts` keys an element of the input list,
and its count is the number of occurrences of that key in the input. -/
theorem groupCounts_spec (l : List String) :
    ∀ p ∈ PostgresSearchRepository.groupCounts l,
      p.1 ∈ l ∧ p.2 = l.countP (fun s => s == p.1) := by
  induction l with
  | nil =>
      intro p hp
      simp [PostgresSearchRepository.groupCounts] at hp
  | cons t rest ih =>
      intro p hp
      simp only [PostgresSearchRepository.groupCounts] at hp
      rcases List.mem_cons.mp hp with hp | hp
      · subst hp
        refine ⟨List.mem_cons_self _ _, ?_⟩
        rw [List.countP_cons]
        simp [Nat.add_comm]
      · have hpf := List.mem_filter.mp hp
        have h := ih p hpf.1
        have hne : p.1 ≠ t := by
          simpa using hpf.2
        have ht : (t == p.1) = false := beq_eq_false_iff_ne.mpr (Ne.symm hne)
        refine ⟨List.mem_cons_of_mem _ h.1, ?_⟩
        rw [h.2, List.countP_cons, ht]
        simp

/-- The group keys produced by `groupCounts` are pairwise distinct. -/
theorem groupCounts_fst_nodup (l : List String) :
    ((PostgresSearchRepository.groupCounts l).map Prod.fst).Nodup := by
  induction l with
  | nil => simp [PostgresSearchRepository.groupCounts]
  | cons t rest ih =>
      simp only [PostgresSearchRepository.groupCounts, List.map_cons]
      rw [List.nodup_cons]
      constructor
      · intro hmem
        rcases List.mem_map.mp hmem with ⟨p, hp, hpt⟩
        have := (List.mem_filter.mp hp).2
        rw [hpt] at this
        simp at this
      · exact List.Sublist.nodup ((List.filter_sublist _).map Prod.fst) ih

/-- C9: `Suggest` of the relational adapter returns at most the (normalized)
requested number of suggestions, ordered by count descending, one per
distinct title; every returned suggestion's text contains the query
case-insensitively and its count is the number of indexed documents whose
title is exactly that text.  On the spec's example store — titles
"Go Basics", "Go Basics", "Go Advanced" — `Suggest("go", 10)` ranks
"Go Basics" with count 2 ahead of "Go Advanced" with count 1. -/
theorem Suggest_grouped_ordered_counts (req : SuggestRequest)
    (rows : List SearchIndex) :
    (PostgresSearchRepository.Suggest req rows).length
      ≤ (if req.limit ≤ 0 then 10 else req.limit).toNat ∧
    List.Pairwise (fun a b : Suggestion => b.count ≤ a.count)
      (PostgresSearchRepository.Suggest req rows) ∧
    ((PostgresSearchRepository.Suggest req rows).map (fun s => s.text)).Nodup ∧
    (∀ s ∈ PostgresSearchRepository.Suggest req rows,
      PostgresSearchRepository.titleLike req.query s.text = true ∧
      s.count = (rows.countP (fun row => row.title == s.text) : Int)) ∧
    PostgresSearchRepository.Suggest (SuggestRequest.mk "go" 10) goRows
      = [Suggestion.mk "Go Basics" 2, Suggestion.mk "Go Advanced" 1] := by
  haveI hTotal : IsTotal (String × Nat) (fun a b => b.2 ≤ a.2) :=
    ⟨fun a b => le_total b.2 a.2⟩
  haveI hTrans : IsTrans (String × Nat) (fun a b => b.2 ≤ a.2) :=
    ⟨fun _ _ _ hab hbc => le_trans hbc hab⟩
  have hsorted := List.sorted_insertionSort (fun a b : String × Nat => b.2 ≤ a.2)
    (PostgresSearchRepository.groupCounts
      ((rows.filter fun row =>
        PostgresSearchRepository.titleLike req.query row.title).map
          fun row => row.title))
  have hperm := List.perm_insertionSort (fun a b : String × Nat => b.2 ≤ a.2)
    (PostgresSearchRepository.groupCounts
      ((rows.filter fun row =>
        PostgresSearchRepository.titleLike req.query row.title).map
          fun row => row.title))
  refine ⟨?_, ?_, ?_, ?_, ?_⟩
  · simp only [PostgresSearchRepository.Suggest, List.length_map]
    exact List.length_take_le _ _
  · simp only [PostgresSearchRepository.Suggest]
    rw [List.pairwise_map]
    refine (List.Pairwise.sublist (List.take_sublist _ _) hsorted).imp ?_
    intro a b hab
    show (b.2 : Int) ≤ (a.2 : Int)
    exact_mod_cast hab
  · simp only [PostgresSearchRepository.Suggest, List.map_map]
    show (List.map Prod.fst (List.take _ _)).Nodup
    rw [List.map_take]
    refine List.Sublist.nodup (List.take_sublist _ _) ?_
    exact ((hperm.map Prod.fst).nodup_iff).mpr (groupCounts_fst_nodup _)
  · intro s hs
    simp only [PostgresSearchRepository.Suggest] at hs
    rcases List.mem_map.mp hs with ⟨g, hg, hgs⟩
    have hgsorted := (List.take_sublist _ _).subset hg
    have hggroups := hperm.mem_iff.mp hgsorted
    have hspec := groupCounts_spec _ g hggroups
    rcases List.mem_map.mp hspec.1 with ⟨row, hrow, hrowt⟩
    have hrowf := List.mem_filter.mp hrow
    have htl : PostgresSearchRepository.titleLike req.query g.1 = true := by
      rw [← hrowt]
      exact hrowf.2
    have hcount : g.2 = rows.countP (fun row => row.title == g.1) := by
      rw [hspec.2, List.countP_map, List.countP_filter]
      apply List.countP_congr
      intro a _
      constructor
      · intro ha
        exact (Bool.and_eq_true _ _).mp ha |>.1
      · intro ha
        refine (Bool.and_eq_true _ _).mpr ⟨ha, ?_⟩
        have haeq : a.title = g.1 := by
          simpa using ha
        rw [haeq]
        exact htl
    subst hgs
    exact ⟨htl, by rw [hcount]⟩
  · rfl

/-- C9 witness: on the example store the returned list respects the limit,
the top suggestion's text "Go Basics" matches "go" case-insensitively, and
its count 2 is the number of rows titled exactly "Go Basics". -/
theorem Suggest_grouped_ordered_counts_witness :
    (PostgresSearchRepository.Suggest (SuggestRequest.mk "go" 10) goRows).length
      ≤ (if (10 : Int) ≤ 0 then 10 else (10 : Int)).toNat ∧
    PostgresSearchRepository.titleLike "go" "Go Basics" = true ∧
    (2 : Int) = (goRows.countP (fun row => row.title == "Go Basics") : Int) := by
  have h := Suggest_grouped_ordered_counts (SuggestRequest.mk "go" 10) goRows
  have hm := h.2.2.2.1 (Suggestion.mk "Go Basics" 2) (by
    rw [h.2.2.2.2]
    exact List.mem_cons_self _ _)
  exact ⟨h.1, hm.1, hm.2⟩

end ThBackend
